import Mathlib

/-!
Verification development for the ChatServer component of the Go-Projects
repository.  The definitions below are a shallow embedding of
`src/ChatServer/src/shared/api.go` together with the `package main` server
code shipped in the same source file: the shared wire type `SystemMessage`,
the `ACTIONS` table, the registry state (`UserData`, `RoomData`, `Server`)
and the connection-handling operations (`AcceptConnection`,
`ManageConnection`, `NewServer`).  Operations that the source does not yet
contain (the message router) are modelled from the specification and are
marked as such in their doc comments.
-/

namespace ChatServer

/-- Wire message `shared.SystemMessage`: the `Action` field (json key
`action`) is always emitted; the other five fields carry `omitempty` json
tags, so they are dropped from the wire encoding when they hold their zero
value (empty string / nil slice). -/
structure SystemMessage where
  Action : String
  UserId : String := ""
  Room : String := ""
  Message : String := ""
  Rooms : List String := []
  Participants : List String := []
  deriving Repr, DecidableEq

/-- The Go map literal `ACTIONS` from `shared/api.go`: each of the eight
recognized action strings is mapped to `true`. -/
def ACTIONS : List (String × Bool) :=
  [("connection", true), ("join", true), ("leave", true), ("error", true),
   ("private_message", true), ("room_message", true), ("rooms", true),
   ("participants", true)]

/-- A Go map read `ACTIONS[a]`: the stored value when the key is present,
and the `bool` zero value `false` when it is absent. -/
def actionAllowed (a : String) : Bool :=
  (ACTIONS.lookup a).getD false

/-- The json keys `encoding/json` emits for a `SystemMessage` value:
`action` unconditionally, and each `omitempty` field only when it differs
from its zero value. -/
def SystemMessage.jsonKeys (m : SystemMessage) : List String :=
  ["action"]
    ++ (if m.UserId = "" then [] else ["user_id"])
    ++ (if m.Room = "" then [] else ["room"])
    ++ (if m.Message = "" then [] else ["message"])
    ++ (if m.Rooms = [] then [] else ["rooms"])
    ++ (if m.Participants = [] then [] else ["participants"])

/-- `UserData` from the server code: the assigned `Id` and the current
`Room` (empty string when in no room).  The `Connection` and `Channel`
fields are transport resources (a websocket handle and an unbuffered
string channel) carrying no registry state; the transport events they
produce are modelled as explicit oracle inputs below. -/
structure UserData where
  Id : String
  Room : String := ""
  deriving Repr, DecidableEq

/-- `RoomData` from the server code: the room `Id` and its `Participants`
list.  `Channel` and `Lock` are transport / synchronization resources. -/
structure RoomData where
  Id : String := ""
  Participants : List String := []
  deriving Repr, DecidableEq

/-- Go's signed 64-bit integer semantics: the value of an `int`
expression reduced to the representable range, with two's-complement
wraparound, so that `NextId += 1` at `2^63 - 1` wraps to `-2^63`. -/
def wrapInt64 (n : Int) : Int :=
  (n + 2 ^ 63) % 2 ^ 64 - 2 ^ 63

/-- `strconv.Itoa`: decimal rendering of a Go `int`, with a leading minus
sign for negative values. -/
def Itoa (n : Int) : String :=
  if n < 0 then "-" ++ Nat.repr (-n).toNat else Nat.repr n.toNat

/-- The server registry: `NextId` (a Go `int` — 64-bit, starting at the
zero value `0` and advanced by a wrapping `+= 1`, hence modelled as `Int`
with every increment passed through `wrapInt64`), the `Rooms` and `Users`
maps as association lists.  `RoomsLock` and `UsersLock` serialize access,
so each operation below is one atomic state transition. -/
structure Server where
  NextId : Int
  Rooms : List (String × RoomData)
  Users : List (String × UserData)
  deriving Repr, DecidableEq

/-- Outcome of `ConnectionUpgrader.Upgrade`, an external transport event:
`ok` when the websocket handshake succeeds, `err` when it fails. -/
inductive UpgradeResult
  | ok
  | err
  deriving Repr, DecidableEq

/-- Go map assignment `m[k] = v` on an association-list map: any previous
binding of `k` is replaced. -/
def mapSet {α : Type} (m : List (String × α)) (k : String) (v : α) :
    List (String × α) :=
  (k, v) :: m.filter (fun p => p.1 != k)

/-- `AcceptConnection` (run under `UsersLock`): computes
`Id := strconv.Itoa(server.NextId)`, increments `NextId`, builds the
`UserData` entry, then attempts the websocket upgrade.  On upgrade error
it returns `(Id, err)` without touching `Users`; on success it stores the
entry under `Id` and returns `(Id, nil)`.  The returned `Bool` is `true`
exactly when the returned Go error is `nil`. -/
def AcceptConnection (server : Server) (upgrade : UpgradeResult) :
    String × Bool × Server :=
  let Id := Itoa server.NextId
  let server1 : Server := { server with NextId := wrapInt64 (server.NextId + 1) }
  match upgrade with
  | .err => (Id, false, server1)
  | .ok =>
    let Data : UserData := { Id := Id }
    (Id, true, { server1 with Users := mapSet server1.Users Id Data })

/-- What one call of `ManageConnection` did: whether it returned `nil`,
the frames it wrote to the new client, whether the deferred
`Connection.Close()` ran, and the resulting registry state. -/
structure ConnOutcome where
  returnedNil : Bool
  sent : List SystemMessage
  closed : Bool
  server : Server
  deriving Repr, DecidableEq

/-- `ManageConnection`: calls `AcceptConnection`; on error it returns that
error.  On success it defers `server.Users[Id].Connection.Close()` and
immediately returns `nil`, so the deferred close runs at once; no frame is
ever written and no further registry mutation happens. -/
def ManageConnection (server : Server) (upgrade : UpgradeResult) :
    ConnOutcome :=
  match AcceptConnection server upgrade with
  | (_, false, server1) =>
    { returnedNil := false, sent := [], closed := false, server := server1 }
  | (_, true, server1) =>
    { returnedNil := true, sent := [], closed := true, server := server1 }

/-- `NewServer`: fresh maps for `Rooms` and `Users`; `NextId` is the Go
zero value `0`. -/
def NewServer : Server :=
  { NextId := 0, Rooms := [], Users := [] }

/-- The registry state after one connection has been fully handled. -/
def stepServer (server : Server) (u : UpgradeResult) : Server :=
  (ManageConnection server u).server

/-- The registry state after a sequence of connections. -/
def runServer (server : Server) (us : List UpgradeResult) : Server :=
  us.foldl stepServer server

/-- The identities handed out by successive `AcceptConnection` calls,
in connection order (an identity is computed for every attempt, whether or
not the handshake succeeds). -/
def connectIds (server : Server) : List UpgradeResult → List String
  | [] => []
  | u :: us => (AcceptConnection server u).1 :: connectIds (stepServer server u) us

/-- The session identities currently registered in the `Users` map. -/
def registeredIds (server : Server) : List String :=
  server.Users.map Prod.fst

/-! ### Decimal representation

`strconv.Itoa` renders a non-negative `int` as `Nat.repr` of its value
and a negative one as the same rendering behind a minus sign.  The
round-trip below recovers a number from its rendering, every character of
a rendering is a digit, and a rendering is never empty; together these
make `Itoa` injective on all of `Int` — the fact behind uniqueness of
session identities within one counter period. -/

/-- Decimal value of a digit character. -/
def digitVal (c : Char) : Nat := c.toNat - 48

/-- Reading a most-significant-first digit string back into a number. -/
def decodeDigits (l : List Char) : Nat :=
  l.foldl (fun a c => 10 * a + digitVal c) 0

theorem digitVal_digitChar (m : Nat) (h : m < 10) :
    digitVal (Nat.digitChar m) = m := by
  have hm : m = 0 ∨ m = 1 ∨ m = 2 ∨ m = 3 ∨ m = 4 ∨ m = 5 ∨ m = 6 ∨ m = 7 ∨
      m = 8 ∨ m = 9 := by omega
  rcases hm with rfl | rfl | rfl | rfl | rfl | rfl | rfl | rfl | rfl | rfl <;> decide

theorem foldl_toDigitsCore (f : Nat) :
    ∀ (n : Nat) (rest : List Char), n < 10 ^ f →
      (Nat.toDigitsCore 10 f n rest).foldl (fun a c => 10 * a + digitVal c) 0 =
        rest.foldl (fun a c => 10 * a + digitVal c) n := by
  induction f with
  | zero =>
    intro n rest h
    have hn : n = 0 := by simpa using h
    subst hn
    rfl
  | succ f ih =>
    intro n rest h
    by_cases h10 : n / 10 = 0
    · have hlt : n < 10 := by omega
      have hmod : n % 10 = n := Nat.mod_eq_of_lt hlt
      simp only [Nat.toDigitsCore]
      rw [if_pos h10, List.foldl_cons]
      rw [digitVal_digitChar (n % 10) (Nat.mod_lt n (by norm_num))]
      rw [Nat.mul_zero, Nat.zero_add, hmod]
    · have hdiv : n / 10 < 10 ^ f := by
        rw [Nat.div_lt_iff_lt_mul (by norm_num : 0 < 10)]
        calc n < 10 ^ (f + 1) := h
        _ = 10 ^ f * 10 := by rw [Nat.pow_succ]
      simp only [Nat.toDigitsCore]
      rw [if_neg h10]
      rw [ih (n / 10) (Nat.digitChar (n % 10) :: rest) hdiv]
      rw [List.foldl_cons]
      rw [digitVal_digitChar (n % 10) (Nat.mod_lt n (by norm_num))]
      congr 1
      omega

theorem decodeDigits_toDigits (n : Nat) :
    decodeDigits (Nat.toDigits 10 n) = n := by
  have hb : n < 10 ^ (n + 1) :=
    lt_of_lt_of_le (Nat.lt_pow_self (by norm_num) n)
      (Nat.pow_le_pow_right (by norm_num) (Nat.le_succ n))
  unfold decodeDigits Nat.toDigits
  rw [foldl_toDigitsCore (n + 1) n [] hb]
  rfl

theorem toDigits_inj {m n : Nat}
    (h : Nat.toDigits 10 m = Nat.toDigits 10 n) : m = n := by
  calc m = decodeDigits (Nat.toDigits 10 m) := (decodeDigits_toDigits m).symm
  _ = decodeDigits (Nat.toDigits 10 n) := by rw [h]
  _ = n := decodeDigits_toDigits n

theorem repr_data (n : Nat) : (Nat.repr n).data = Nat.toDigits 10 n := rfl

theorem repr_injective : Function.Injective Nat.repr := by
  intro m n h
  have hd : Nat.toDigits 10 m = Nat.toDigits 10 n := by
    have hcongr := congrArg String.data h
    simp only [repr_data] at hcongr
    exact hcongr
  exact toDigits_inj hd

theorem digitChar_code (m : Nat) (h : m < 10) :
    48 ≤ (Nat.digitChar m).toNat ∧ (Nat.digitChar m).toNat ≤ 57 := by
  have hm : m = 0 ∨ m = 1 ∨ m = 2 ∨ m = 3 ∨ m = 4 ∨ m = 5 ∨ m = 6 ∨ m = 7 ∨
      m = 8 ∨ m = 9 := by omega
  rcases hm with rfl | rfl | rfl | rfl | rfl | rfl | rfl | rfl | rfl | rfl <;> decide

theorem toDigitsCore_code (f : Nat) :
    ∀ (n : Nat) (rest : List Char),
      (∀ c ∈ rest, 48 ≤ c.toNat ∧ c.toNat ≤ 57) →
      ∀ c ∈ Nat.toDigitsCore 10 f n rest, 48 ≤ c.toNat ∧ c.toNat ≤ 57 := by
  induction f with
  | zero =>
    intro n rest h c hc
    simp only [Nat.toDigitsCore] at hc
    exact h c hc
  | succ f ih =>
    intro n rest h c hc
    simp only [Nat.toDigitsCore] at hc
    by_cases h10 : n / 10 = 0
    · rw [if_pos h10] at hc
      rcases List.mem_cons.mp hc with rfl | hc2
      · exact digitChar_code (n % 10) (Nat.mod_lt n (by norm_num))
      · exact h c hc2
    · rw [if_neg h10] at hc
      refine ih (n / 10) (Nat.digitChar (n % 10) :: rest) ?_ c hc
      intro d hd
      rcases List.mem_cons.mp hd with rfl | hd2
      · exact digitChar_code (n % 10) (Nat.mod_lt n (by norm_num))
      · exact h d hd2

theorem toDigits_code (n : Nat) :
    ∀ c ∈ Nat.toDigits 10 n, 48 ≤ c.toNat ∧ c.toNat ≤ 57 := by
  intro c hc
  unfold Nat.toDigits at hc
  exact toDigitsCore_code (n + 1) n [] (by simp) c hc

theorem length_le_toDigitsCore (f : Nat) :
    ∀ (n : Nat) (rest : List Char),
      rest.length ≤ (Nat.toDigitsCore 10 f n rest).length := by
  induction f with
  | zero => intro n rest; simp [Nat.toDigitsCore]
  | succ f ih =>
    intro n rest
    simp only [Nat.toDigitsCore]
    by_cases h10 : n / 10 = 0
    · rw [if_pos h10]; simp
    · rw [if_neg h10]
      calc rest.length ≤ (Nat.digitChar (n % 10) :: rest).length := by simp
      _ ≤ _ := ih (n / 10) (Nat.digitChar (n % 10) :: rest)

theorem toDigits_ne_nil (n : Nat) : Nat.toDigits 10 n ≠ [] := by
  unfold Nat.toDigits
  simp only [Nat.toDigitsCore]
  by_cases h10 : n / 10 = 0
  · rw [if_pos h10]; simp
  · rw [if_neg h10]
    intro hemp
    have hge := length_le_toDigitsCore n (n / 10) [Nat.digitChar (n % 10)]
    rw [hemp] at hge
    simp at hge

theorem Itoa_natCast (k : Nat) : Itoa (k : Int) = Nat.repr k := by
  unfold Itoa
  rw [if_neg (by omega)]
  simp

theorem Itoa_injective : Function.Injective Itoa := by
  intro a b h
  unfold Itoa at h
  have hminus : ("-" : String).data = ['-'] := rfl
  by_cases ha : a < 0 <;> by_cases hb : b < 0
  · rw [if_pos ha, if_pos hb] at h
    have hd := congrArg String.data h
    simp only [String.data_append, repr_data, hminus, List.cons_append,
      List.nil_append, List.cons.injEq, true_and] at hd
    have := toDigits_inj hd
    omega
  · rw [if_pos ha, if_neg hb] at h
    exfalso
    have hd := congrArg String.data h
    simp only [String.data_append, repr_data, hminus, List.cons_append,
      List.nil_append] at hd
    have hmem : '-' ∈ Nat.toDigits 10 b.toNat := by
      rw [← hd]; simp
    have hcode := toDigits_code b.toNat '-' hmem
    have h45 : ('-').toNat = 45 := rfl
    omega
  · rw [if_neg ha, if_pos hb] at h
    exfalso
    have hd := congrArg String.data h
    simp only [String.data_append, repr_data, hminus, List.cons_append,
      List.nil_append] at hd
    have hmem : '-' ∈ Nat.toDigits 10 a.toNat := by
      rw [hd]; simp
    have hcode := toDigits_code a.toNat '-' hmem
    have h45 : ('-').toNat = 45 := rfl
    omega
  · rw [if_neg ha, if_neg hb] at h
    have := repr_injective h
    omega

theorem wrapInt64_eq_self (x : Int) (h1 : -(2 ^ 63) ≤ x) (h2 : x < 2 ^ 63) :
    wrapInt64 x = x := by
  unfold wrapInt64
  omega

theorem wrapInt64_wrapInt64_add (m k : Int) :
    wrapInt64 (wrapInt64 m + k) = wrapInt64 (m + k) := by
  unfold wrapInt64
  omega

theorem wrapInt64_mem_range (m : Int) :
    -(2 ^ 63) ≤ wrapInt64 m ∧ wrapInt64 m < 2 ^ 63 := by
  unfold wrapInt64
  omega

/-! ### Basic facts about the connection operations -/

theorem accept_id (server : Server) (u : UpgradeResult) :
    (AcceptConnection server u).1 = Itoa server.NextId := by
  cases u <;> rfl

theorem accept_nextId (server : Server) (u : UpgradeResult) :
    (AcceptConnection server u).2.2.NextId = wrapInt64 (server.NextId + 1) := by
  cases u <;> rfl

theorem stepServer_nextId (server : Server) (u : UpgradeResult) :
    (stepServer server u).NextId = wrapInt64 (server.NextId + 1) := by
  cases u <;> rfl

theorem stepServer_rooms (server : Server) (u : UpgradeResult) :
    (stepServer server u).Rooms = server.Rooms := by
  cases u <;> rfl

theorem connectIds_eq (us : List UpgradeResult) :
    ∀ server : Server, -(2 ^ 63) ≤ server.NextId → server.NextId < 2 ^ 63 →
      connectIds server us =
        (List.range us.length).map
          (fun k : Nat => Itoa (wrapInt64 (server.NextId + (k : Int)))) := by
  induction us with
  | nil => intro server _ _; rfl
  | cons u us ih =>
    intro server h1 h2
    show (AcceptConnection server u).1 :: connectIds (stepServer server u) us = _
    have hstep : (stepServer server u).NextId = wrapInt64 (server.NextId + 1) :=
      stepServer_nextId server u
    have hr := wrapInt64_mem_range (server.NextId + 1)
    rw [accept_id, ih (stepServer server u) (hstep ▸ hr.1) (hstep ▸ hr.2), hstep]
    simp only [List.length_cons, List.range_succ_eq_map, List.map_cons, List.map_map,
      Nat.cast_zero, add_zero]
    rw [wrapInt64_eq_self server.NextId h1 h2]
    congr 1
    apply List.map_congr_left
    intro a _
    simp only [Function.comp_apply]
    rw [wrapInt64_wrapInt64_add]
    congr 2
    push_cast
    ring

theorem runServer_rooms (us : List UpgradeResult) :
    ∀ server : Server, (runServer server us).Rooms = server.Rooms := by
  induction us with
  | nil => intro server; rfl
  | cons u us ih =>
    intro server
    show (runServer (stepServer server u) us).Rooms = server.Rooms
    rw [ih, stepServer_rooms]

/-! ### Claim theorems on the connection lifecycle -/

/-- C1 (amended): in a process lifetime of at most 2^63 connection
attempts — while the wrapping int counter never overflows — a sequence of
successful Connect operations assigns the n-th connection the identity
whose decimal-string form is n-1, each computed from the server's
`NextId` counter at the moment of connection. -/
theorem C1_connect_ids_sequential (us : List UpgradeResult)
    (_hok : ∀ u ∈ us, u = UpgradeResult.ok) (hlen : us.length ≤ 2 ^ 63) :
    connectIds NewServer us = (List.range us.length).map Nat.repr ∧
      ∀ (server : Server) (u : UpgradeResult),
        (AcceptConnection server u).1 = Itoa server.NextId := by
  refine ⟨?_, fun server u => accept_id server u⟩
  rw [connectIds_eq us NewServer (by norm_num [NewServer]) (by norm_num [NewServer])]
  apply List.map_congr_left
  intro k hk
  rw [List.mem_range] at hk
  have hk2 : k < 2 ^ 63 := lt_of_lt_of_le hk hlen
  show Itoa (wrapInt64 (NewServer.NextId + (k : Int))) = Nat.repr k
  have h0 : NewServer.NextId = 0 := rfl
  rw [h0, zero_add, wrapInt64_eq_self _ (by omega) (by exact_mod_cast hk2)]
  exact Itoa_natCast k

/-- Witness for C1 at a concrete all-successful trace of three connects. -/
theorem C1_connect_ids_sequential_witness :
    ((∀ u ∈ [UpgradeResult.ok, UpgradeResult.ok, UpgradeResult.ok],
        u = UpgradeResult.ok) ∧
      ([UpgradeResult.ok, UpgradeResult.ok,
        UpgradeResult.ok] : List UpgradeResult).length ≤ 2 ^ 63) ∧
      connectIds NewServer [UpgradeResult.ok, UpgradeResult.ok, UpgradeResult.ok] =
        ["0", "1", "2"] := by
  refine ⟨⟨by decide, by norm_num⟩, ?_⟩
  have h := C1_connect_ids_sequential
    [UpgradeResult.ok, UpgradeResult.ok, UpgradeResult.ok] (by decide) (by norm_num)
  rw [h.1]
  rfl

/-- C1 counterexample: on the explicit all-successful trace of length
2^63 + 1 the original unbounded claim fails — the attempt made after the
int counter reaches 2^63 - 1 wraps and is assigned the identity
"-9223372036854775808", not the decimal form of 2^63. -/
theorem C1_connect_ids_sequential_counterexample :
    (∀ u ∈ List.replicate (2 ^ 63 + 1) UpgradeResult.ok,
        u = UpgradeResult.ok) ∧
      connectIds NewServer (List.replicate (2 ^ 63 + 1) UpgradeResult.ok) ≠
        (List.range
          (List.replicate (2 ^ 63 + 1) UpgradeResult.ok).length).map Nat.repr := by
  refine ⟨fun u hu => List.eq_of_mem_replicate hu, ?_⟩
  intro hEq
  have hlen : (List.replicate (2 ^ 63 + 1) UpgradeResult.ok).length = 2 ^ 63 + 1 :=
    List.length_replicate _ _
  have hlt : (2 ^ 63 : ℕ) < 2 ^ 63 + 1 := by omega
  have h0 : NewServer.NextId = 0 := rfl
  have h1 : (connectIds NewServer
      (List.replicate (2 ^ 63 + 1) UpgradeResult.ok)).getD (2 ^ 63) "" =
      Itoa (wrapInt64 ((2 ^ 63 : ℕ) : ℤ)) := by
    rw [connectIds_eq _ NewServer (by norm_num [NewServer]) (by norm_num [NewServer]), hlen]
    simp [List.getD, List.getElem?_map, List.getElem?_range, hlt, h0]
  have h2 : (((List.range
      (List.replicate (2 ^ 63 + 1) UpgradeResult.ok).length).map Nat.repr).getD
        (2 ^ 63) "") = Nat.repr (2 ^ 63) := by
    rw [hlen]
    simp [List.getD, List.getElem?_map, List.getElem?_range, hlt]
  rw [hEq, h2] at h1
  have hwrap : wrapInt64 ((2 ^ 63 : ℕ) : ℤ) = -(2 ^ 63) := by
    unfold wrapInt64
    omega
  rw [hwrap] at h1
  exact absurd h1 (by decide)

/-- C4: `AcceptConnection` returns a non-nil error exactly when the
websocket upgrade fails, and a failed call leaves the `Users` map
unchanged, so no session is registered by a failed Connect. -/
theorem C4_connect_fails_only_on_handshake (server : Server) :
    (∀ u : UpgradeResult,
        (AcceptConnection server u).2.1 = false ↔ u = UpgradeResult.err) ∧
      (AcceptConnection server UpgradeResult.err).2.2.Users = server.Users := by
  constructor
  · intro u; cases u <;> simp [AcceptConnection]
  · rfl

/-- C5 (amended): within any lifetime of at most 2^64 connection
attempts — one full period of the wrapping int counter — the assigned
identities never repeat (the assigned-identity list has no duplicates),
and the `NextId` counter is advanced, with 64-bit wraparound, at every
attempt. -/
theorem C5_connect_ids_distinct (us : List UpgradeResult)
    (hlen : us.length ≤ 2 ^ 64) :
    (connectIds NewServer us).Nodup ∧
      ∀ (server : Server) (u : UpgradeResult),
        (stepServer server u).NextId = wrapInt64 (server.NextId + 1) := by
  refine ⟨?_, fun server u => stepServer_nextId server u⟩
  rw [connectIds_eq us NewServer (by norm_num [NewServer]) (by norm_num [NewServer])]
  apply List.Nodup.map_on ?_ (List.nodup_range _)
  intro x hx y hy hfeq
  rw [List.mem_range] at hx hy
  have h0 : NewServer.NextId = 0 := rfl
  rw [h0, zero_add, zero_add] at hfeq
  have hinj := Itoa_injective hfeq
  unfold wrapInt64 at hinj
  omega

/-- Witness for C5 at a concrete two-attempt trace. -/
theorem C5_connect_ids_distinct_witness :
    (([UpgradeResult.ok, UpgradeResult.err] : List UpgradeResult).length
        ≤ 2 ^ 64) ∧
      (connectIds NewServer [UpgradeResult.ok, UpgradeResult.err]).Nodup :=
  ⟨by norm_num,
    (C5_connect_ids_distinct [UpgradeResult.ok, UpgradeResult.err]
      (by norm_num)).1⟩

/-- C5 counterexample: on the explicit trace of 2^64 + 1 attempts the
original unbounded claim fails — after one full period the wrapped
counter reads 0 again, so the attempt with index 2^64 is assigned the
identity "0" a second time and the identity list has a duplicate. -/
theorem C5_connect_ids_distinct_counterexample :
    ¬ (connectIds NewServer
        (List.replicate (2 ^ 64 + 1) UpgradeResult.ok)).Nodup := by
  rw [connectIds_eq _ NewServer (by norm_num [NewServer]) (by norm_num [NewServer]),
    List.length_replicate]
  intro hnd
  have hm0 : (0 : ℕ) ∈ List.range (2 ^ 64 + 1) := by simp
  have hm1 : (2 ^ 64 : ℕ) ∈ List.range (2 ^ 64 + 1) := by simp
  have hfeq : Itoa (wrapInt64 (NewServer.NextId + ((0 : ℕ) : ℤ))) =
      Itoa (wrapInt64 (NewServer.NextId + ((2 ^ 64 : ℕ) : ℤ))) := by
    have harg : wrapInt64 (NewServer.NextId + ((0 : ℕ) : ℤ)) =
        wrapInt64 (NewServer.NextId + ((2 ^ 64 : ℕ) : ℤ)) := by
      have h0 : NewServer.NextId = 0 := rfl
      rw [h0]
      unfold wrapInt64
      omega
    rw [harg]
  have := List.inj_on_of_nodup_map hnd hm0 hm1 hfeq
  omega

/-- C9: a connection attempt whose handshake fails still advances the
identity counter (Go's wrapping `+= 1`, at every state) and registers
nothing, so identities of successfully registered sessions need not be
consecutive: after the trace ok, err, ok the registered identities are
exactly 2 and 0, and identity 1 was consumed but never registered. -/
theorem C9_failed_handshake_consumes_identity :
    (∀ (server : Server) (u : UpgradeResult),
        (AcceptConnection server u).2.2.NextId =
          wrapInt64 (server.NextId + 1)) ∧
      (∀ server : Server,
        (AcceptConnection server UpgradeResult.err).2.2.Users = server.Users) ∧
      registeredIds (runServer NewServer
        [UpgradeResult.ok, UpgradeResult.err, UpgradeResult.ok]) = ["2", "0"] ∧
      "1" ∉ registeredIds (runServer NewServer
        [UpgradeResult.ok, UpgradeResult.err, UpgradeResult.ok]) := by
  refine ⟨fun server u => accept_nextId server u, fun server => rfl, ?_, ?_⟩
  · rfl
  · decide

/-- C10: `NewServer` creates the `Rooms` map empty and no operation of the
code ever touches it, so in every reachable state the room registry is
empty and the non-empty-member-set invariant holds vacuously. -/
theorem C10_rooms_registry_always_empty :
    NewServer.Rooms = [] ∧
      (∀ us : List UpgradeResult, (runServer NewServer us).Rooms = []) ∧
      (∀ us : List UpgradeResult,
        ((runServer NewServer us).Rooms.all
          (fun p => !p.2.Participants.isEmpty)) = true) := by
  refine ⟨rfl, fun us => ?_, fun us => ?_⟩ <;> rw [runServer_rooms] <;> rfl

/-- C2 fails on the code: `ManageConnection` writes no frame to the new
client at all — in particular no `connection` frame carrying the assigned
identity — even when the handshake succeeds and it returns nil. -/
theorem C2_no_connection_frame_is_sent :
    (∀ (server : Server) (u : UpgradeResult),
        (ManageConnection server u).sent = []) ∧
      (ManageConnection NewServer UpgradeResult.ok).returnedNil = true := by
  constructor
  · intro server u; cases u <;> rfl
  · rfl

/-- C3 fails on the code: after the only cleanup the code performs (the
deferred `Connection.Close()`) has run, the session's entry is still
present in the `Users` map — `ManageConnection` never removes it. -/
theorem C3_users_entry_never_removed :
    (ManageConnection NewServer UpgradeResult.ok).closed = true ∧
      List.lookup "0"
        (ManageConnection NewServer UpgradeResult.ok).server.Users =
          some { Id := "0" } ∧
      (∀ (server : Server) (u : UpgradeResult),
        (ManageConnection server u).server.Users =
          (AcceptConnection server u).2.2.Users) := by
  refine ⟨rfl, ?_, fun server u => ?_⟩
  · rfl
  · cases u <;> rfl

/-- C8: a string is mapped to true by the `ACTIONS` table exactly when it
is one of the eight protocol actions, and every wire message emits only
the six recognized json keys, with `action` always among them. -/
theorem C8_actions_and_wire_fields :
    (∀ a : String, actionAllowed a = true ↔
        a ∈ ["connection", "join", "leave", "error", "private_message",
             "room_message", "rooms", "participants"]) ∧
      (∀ m : SystemMessage,
        "action" ∈ m.jsonKeys ∧
          m.jsonKeys ⊆
            ["action", "user_id", "room", "message", "rooms", "participants"]) := by
  constructor
  · intro a
    simp only [actionAllowed, ACTIONS, List.lookup]
    repeat' split
    all_goals simp_all [beq_iff_eq]
  · intro m
    refine ⟨?_, ?_⟩ <;> simp only [SystemMessage.jsonKeys] <;> split_ifs <;> decide


/-! ### Spec-modelled Message Router

The source under src contains only the connection bootstrap: the Message
Router and Room Registry operations (Join, Leave, DirectMessage,
RoomMessage, ListRooms, ListParticipants) and the per-session dispatch
loop are not present — only their wire types (`SystemMessage`), the
recognized-action table (`ACTIONS`) and the decode helper (`ReadJSON`)
exist.  The definitions below are modelled from the spec's wording and
from the repository's design document. -/

/-- Modelled from the spec: the router's view of the registries — each
session's current room (nullable) and each room's member list.  The
missing source is the chat server's `server.go` routing code. -/
structure ChatState where
  users : List (String × Option String)
  rooms : List (String × List String)
  deriving Repr, DecidableEq

/-- Go map deletion on an association-list map. -/
def mapErase {α : Type} (m : List (String × α)) (k : String) :
    List (String × α) :=
  m.filter (fun p => p.1 != k)

/-- An error-action reply frame with a human-readable text. -/
def errorReply (text : String) : SystemMessage :=
  { Action := "error", Message := text }

/-- Departure notification sent to the remaining members of a room. -/
def leaveNotice (r who : String) : SystemMessage :=
  { Action := "leave", Room := r, UserId := who }

/-- Leave confirmation sent back to the departing session. -/
def leaveReply (r : String) : SystemMessage :=
  { Action := "leave", Room := r }

/-- Join confirmation carrying the room and the full member list. -/
def joinConfirm (r : String) (members : List String) : SystemMessage :=
  { Action := "join", Room := r, Participants := members }

/-- Arrival notification sent to the pre-existing members of a room. -/
def joinNotice (r who : String) : SystemMessage :=
  { Action := "join", Room := r, UserId := who }

/-- A direct-message frame tagged with the peer session and the body. -/
def pmFrame (who body : String) : SystemMessage :=
  { Action := "private_message", UserId := who, Message := body }

/-- A room-broadcast frame carrying the room and the body. -/
def roomMsgFrame (r body : String) : SystemMessage :=
  { Action := "room_message", Room := r, Message := body }

/-- The reply to a rooms query. -/
def roomsReply (rs : List String) : SystemMessage :=
  { Action := "rooms", Rooms := rs }

/-- The reply to a participants query. -/
def participantsReply (r : String) (members : List String) : SystemMessage :=
  { Action := "participants", Room := r, Participants := members }

/-- Modelled from the spec: Leave — with no current room, a local
not-in-a-room error to the sender and no state change; otherwise the
sender is removed from its room's member set, its room reference is
cleared, the room is deleted if now empty, and remaining members are
notified of the departure. -/
def LeaveRoom (st : ChatState) (sender : String) :
    ChatState × List (String × SystemMessage) :=
  match st.users.lookup sender with
  | some (some r) =>
    let members := (st.rooms.lookup r).getD []
    let remaining := members.filter (fun m => m != sender)
    let rooms1 := if remaining.isEmpty then mapErase st.rooms r
                  else mapSet st.rooms r remaining
    ({ users := mapSet st.users sender none, rooms := rooms1 },
      remaining.map (fun m => (m, leaveNotice r sender))
        ++ [(sender, leaveReply r)])
  | _ =>
    (st, [(sender, errorReply "user was not in a room")])

/-- Modelled from the spec: Join — implicit room creation, idempotent when
already a member, atomic removal from a previous different room (with
member notification there and deletion if emptied), confirmation with the
full member list to all members, and an arrival notification to the
pre-existing members. -/
def JoinRoom (st : ChatState) (sender roomId : String) :
    ChatState × List (String × SystemMessage) :=
  let cur := (st.users.lookup sender).getD none
  if cur = some roomId then
    let members := (st.rooms.lookup roomId).getD []
    (st, members.map (fun m => (m, joinConfirm roomId members)))
  else
    let moved : ChatState × List (String × SystemMessage) :=
      match cur with
      | some r =>
        let members := (st.rooms.lookup r).getD []
        let remaining := members.filter (fun m => m != sender)
        let rooms1 := if remaining.isEmpty then mapErase st.rooms r
                      else mapSet st.rooms r remaining
        (ChatState.mk (mapSet st.users sender none) rooms1,
          remaining.map (fun m => (m, leaveNotice r sender)))
      | none => (st, [])
    let st1 := moved.1
    let old := (st1.rooms.lookup roomId).getD []
    let members1 := old ++ [sender]
    let st2 : ChatState :=
      { users := mapSet st1.users sender (some roomId),
        rooms := mapSet st1.rooms roomId members1 }
    (st2,
      moved.2
        ++ members1.map (fun m => (m, joinConfirm roomId members1))
        ++ old.map (fun m => (m, joinNotice roomId sender)))

/-- Modelled from the spec: DirectMessage — unknown target yields a
target-not-found error to the sender and no delivery; otherwise the body
is delivered to the target tagged with the sender, and delivery is echoed
to the sender. -/
def DirectMessage (st : ChatState) (sender target body : String) :
    ChatState × List (String × SystemMessage) :=
  match st.users.lookup target with
  | none =>
    (st, [(sender, errorReply ("user " ++ target ++ " is not on the server"))])
  | some _ =>
    (st, [(target, pmFrame sender body), (sender, pmFrame target body)])

/-- Modelled from the spec: RoomMessage — with no current room, a
not-in-room error; otherwise the body is fanned out to every other member
of the sender's room (the sender excluded from the fan-out) and a
confirmation carrying the room and body goes back to the sender.  Returns
the state, the fan-out deliveries, and the sender's reply frame. -/
def RoomMessage (st : ChatState) (sender body : String) :
    ChatState × List (String × SystemMessage) × SystemMessage :=
  match st.users.lookup sender with
  | some (some r) =>
    let members := (st.rooms.lookup r).getD []
    let others := members.filter (fun m => m != sender)
    (st, others.map (fun m => (m, roomMsgFrame r body)), roomMsgFrame r body)
  | _ =>
    (st, [], errorReply "user is not in a room")

/-- Modelled from the spec: ListRooms — all currently existing room
identifiers, never failing. -/
def ListRoomsOp (st : ChatState) (sender : String) :
    ChatState × List (String × SystemMessage) :=
  (st, [(sender, roomsReply (st.rooms.map Prod.fst))])

/-- Modelled from the spec: ListParticipants — the member set of the room
including the requester if present, or a room-not-found error. -/
def ListParticipantsOp (st : ChatState) (sender roomId : String) :
    ChatState × List (String × SystemMessage) :=
  match st.rooms.lookup roomId with
  | none =>
    (st, [(sender, errorReply ("room " ++ roomId ++ " does not exist"))])
  | some members =>
    (st, [(sender, participantsReply roomId members)])

/-- Result of `ReadJSON` on one inbound frame: a decode error or a decoded
message. -/
inductive Frame
  | malformed
  | msg (m : SystemMessage)
  deriving Repr, DecidableEq

/-- The error reply for the malformed-action case of the spec's error
taxonomy. -/
def MALFORMED_REPLY : SystemMessage :=
  errorReply "malformed action"

/-- Modelled from the spec: the per-session dispatch loop body (absent
from src, where `ReadJSON` and `ACTIONS` are declared but never called).
A decode failure or an action outside `ACTIONS` drops the frame: the
registries are untouched, the originating session is sent an error reply,
and the session stays connected (`true` in the last component).
Recognized actions go to the corresponding router operation; inbound
`connection` and `error` frames have no specified handling and do
nothing. -/
def dispatch (st : ChatState) (sender : String) (f : Frame) :
    ChatState × List (String × SystemMessage) × Bool :=
  match f with
  | .malformed => (st, [(sender, MALFORMED_REPLY)], true)
  | .msg m =>
    if actionAllowed m.Action then
      match m.Action with
      | "join" =>
        let r := JoinRoom st sender m.Room
        (r.1, r.2, true)
      | "leave" =>
        let r := LeaveRoom st sender
        (r.1, r.2, true)
      | "private_message" =>
        let r := DirectMessage st sender m.UserId m.Message
        (r.1, r.2, true)
      | "room_message" =>
        let r := RoomMessage st sender m.Message
        (r.1, r.2.1 ++ [(sender, r.2.2)], true)
      | "rooms" =>
        let r := ListRoomsOp st sender
        (r.1, r.2, true)
      | "participants" =>
        let r := ListParticipantsOp st sender m.Room
        (r.1, r.2, true)
      | _ => (st, [], true)
    else (st, [(sender, MALFORMED_REPLY)], true)

/-- C6: a RoomMessage broadcast by a sender currently in room `r` fans the
body out to every other current member of that room, and the sender is
never among the fan-out targets. -/
theorem C6_room_broadcast_excludes_sender (st : ChatState)
    (sender body r : String)
    (hin : st.users.lookup sender = some (some r)) :
    (∀ m ∈ (st.rooms.lookup r).getD [], m ≠ sender →
        (m, roomMsgFrame r body) ∈ (RoomMessage st sender body).2.1) ∧
      ∀ d ∈ (RoomMessage st sender body).2.1, d.1 ≠ sender := by
  simp only [RoomMessage, hin]
  constructor
  · intro m hm hne
    simp only [List.mem_map]
    refine ⟨m, ?_, rfl⟩
    rw [List.mem_filter]
    exact ⟨hm, by simp [hne]⟩
  · intro d hd
    simp only [List.mem_map] at hd
    obtain ⟨a, ha, rfl⟩ := hd
    have hfil := (List.mem_filter.mp ha).2
    simpa using hfil

/-- Witness for C6: in a two-member lobby, the broadcast from session 0
reaches session 1 and nothing in the fan-out targets session 0. -/
theorem C6_room_broadcast_excludes_sender_witness :
    (∀ m ∈ (((ChatState.mk [("0", some "lobby"), ("1", some "lobby")]
          [("lobby", ["0", "1"])]).rooms.lookup "lobby").getD []),
        m ≠ "0" →
        (m, roomMsgFrame "lobby" "hi")
          ∈ (RoomMessage (ChatState.mk [("0", some "lobby"), ("1", some "lobby")]
              [("lobby", ["0", "1"])]) "0" "hi").2.1) ∧
      ∀ d ∈ (RoomMessage (ChatState.mk [("0", some "lobby"), ("1", some "lobby")]
          [("lobby", ["0", "1"])]) "0" "hi").2.1, d.1 ≠ "0" :=
  C6_room_broadcast_excludes_sender
    (ChatState.mk [("0", some "lobby"), ("1", some "lobby")]
      [("lobby", ["0", "1"])]) "0" "hi" "lobby" (by decide)

/-- C7: an inbound frame that fails to decode, or decodes to an action
outside `ACTIONS`, is dropped: the registries are unchanged, the only
frame produced is an error reply to the originating session, and the
session is not disconnected. -/
theorem C7_malformed_frame_dropped (st : ChatState) (sender : String) :
    dispatch st sender Frame.malformed =
        (st, [(sender, MALFORMED_REPLY)], true) ∧
      ∀ m : SystemMessage, actionAllowed m.Action = false →
        dispatch st sender (Frame.msg m) =
          (st, [(sender, MALFORMED_REPLY)], true) := by
  constructor
  · rfl
  · intro m hm
    simp [dispatch, hm]

/-- Witness for C7 at an empty registry, with a decode failure and with an
unrecognized action value. -/
theorem C7_malformed_frame_dropped_witness :
    dispatch (ChatState.mk [] []) "0" Frame.malformed =
        (ChatState.mk [] [], [("0", MALFORMED_REPLY)], true) ∧
      dispatch (ChatState.mk [] []) "0" (Frame.msg { Action := "bogus" }) =
        (ChatState.mk [] [], [("0", MALFORMED_REPLY)], true) :=
  ⟨(C7_malformed_frame_dropped (ChatState.mk [] []) "0").1,
    (C7_malformed_frame_dropped (ChatState.mk [] []) "0").2
      { Action := "bogus" } (by decide)⟩

end ChatServer
